import Mathlib

/-!
# Ink simulation: construction of the simulation state

A shallow embedding of `src/system.cpp`: the water grid (`initWaterGrid`), the
random position sampler (`getRandPosWithinRange`) and the ink particle pool
(`initParticles`), followed by the properties of the initial state.

Conventions of the embedding.

* A C++ `float` is a `FloatVal`: `some q` is the finite value `q`, computed in
  exact rational arithmetic (rounding is not modelled); `none` is the result
  of a division by zero (an infinity or a NaN), which every later operation
  propagates.
* Where the value of a float expression is at stake (`getRandPosWithinRangeOn`), the
  float type and its operations are parameters (`FloatArith`): what is proved holds for
  every arithmetic, the rounding and overflowing one of the machine included. The exact
  arithmetic of `FloatVal` is one such arithmetic (`exactArith`).
* `rand()` reads a global generator.  Its state is the infinite sequence of
  the values it is still going to return.
* The constants `WATERGRID_X`, `WATERGRID_Y`, `WATERGRID_Z` and
  `INIT_NUM_PARTICLES` are declared in `system.h`; they are the fields of
  `Config`, and arithmetic on them is exact.
* `assert` aborts the program: a function containing one returns `none` when
  the asserted condition is false.
-/

namespace InkSimulation

/-! ## Data model -/

/-- A `float`: a finite rational, or `none` for the result of a division by zero. -/
abbrev FloatVal := Option ℚ

/-- Eigen `Vector3f`. -/
structure Vector3f where
  x : FloatVal
  y : FloatVal
  z : FloatVal
deriving DecidableEq

/-- Eigen `Vector3i`. -/
structure Vector3i where
  x : Int
  y : Int
  z : Int
deriving DecidableEq

/-- One voxel of the water grid. -/
structure Cell where
  old_velocity : Vector3f
  curr_velocity : Vector3f
  pressure : FloatVal
deriving DecidableEq

/-- One ink particle. -/
structure Particle where
  position : Vector3f
  velocity : Vector3f
  opacity : FloatVal
  lifeTime : FloatVal
deriving DecidableEq

/-- The compile-time constants of `system.h`. -/
structure Config where
  WATERGRID_X : Nat
  WATERGRID_Y : Nat
  WATERGRID_Z : Nat
  INIT_NUM_PARTICLES : Nat

/-- The map `m_waterGrid`, as the list of its entries; its keys are kept distinct by `gridInsert`. -/
abbrev WaterGrid := List (Vector3i × Cell)

/-- The members of `System`; of the pressure coefficient matrix only its order is kept. -/
structure System where
  m_waterGrid : WaterGrid
  m_ink : List Particle
  m_pressureA : Nat

/-- The state built by the constructor `System::System(){}`. -/
def emptySystem : System := { m_waterGrid := [], m_ink := [], m_pressureA := 0 }

/-! ## Float arithmetic -/

/-- Conversion of an `int` to `float`. -/
def ofInt (n : Int) : FloatVal := some (n : ℚ)

/-- Float addition. -/
def fadd (a b : FloatVal) : FloatVal :=
  match a, b with
  | some p, some q => some (p + q)
  | _, _ => none

/-- Float subtraction. -/
def fsub (a b : FloatVal) : FloatVal :=
  match a, b with
  | some p, some q => some (p - q)
  | _, _ => none

/-- Float division; a zero divisor gives no finite value. -/
def fdiv (a b : FloatVal) : FloatVal :=
  match a, b with
  | some p, some q => if q = 0 then none else some (p / q)
  | _, _ => none

/-- All three components are finite. -/
def Vector3f.isPoint (v : Vector3f) : Bool :=
  v.x.isSome && v.y.isSome && v.z.isSome

/-! ## The random generator -/

/-- State of the generator behind `rand()`: the values still to be returned. -/
abbrev RandState := Nat → Nat

/-- The generator after `k` further calls. -/
def dropDraws (k : Nat) (g : RandState) : RandState := fun n => g (n + k)

/-- One call of `rand()`: the value returned and the new state. -/
def rand (g : RandState) : Nat × RandState := (g 0, dropDraws 1 g)

/-! ## The water grid -/

/-- Membership test on the keys of the map. -/
def gridContains (grid : WaterGrid) (k : Vector3i) : Bool :=
  grid.any (fun e => decide (e.1 = k))

/-- The method `insert` of the map: an entry whose key is already present is not inserted. -/
def gridInsert (grid : WaterGrid) (k : Vector3i) (c : Cell) : WaterGrid :=
  if gridContains grid k then grid else grid ++ [(k, c)]

/-- The cell built in the body of the loops of `initWaterGrid`. -/
def initCell : Cell :=
  { old_velocity := ⟨ofInt 5, ofInt 0, ofInt 0⟩
    curr_velocity := ⟨ofInt 5, ofInt 0, ofInt 0⟩
    pressure := ofInt 0 }

/-- The three nested loops of `initWaterGrid`. -/
def initWaterGridLoop (cfg : Config) (grid : WaterGrid) : WaterGrid :=
  (List.range cfg.WATERGRID_X).foldl (fun (g1 : WaterGrid) (l : Nat) =>
    (List.range cfg.WATERGRID_Z).foldl (fun (g2 : WaterGrid) (w : Nat) =>
      (List.range cfg.WATERGRID_Y).foldl (fun (g3 : WaterGrid) (h : Nat) =>
        gridInsert g3 ⟨(l : Int), (w : Int), (h : Int)⟩ initCell) g2) g1) grid

/-- Modelled from the spec: `initPressureA` is called by `initWaterGrid` and its body is not
in `system.cpp`. The spec says that it sets up the auxiliary pressure coefficient matrix,
sized to match the voxel count, and names no other effect: the grid and the particle pool
are left as they are. -/
def initPressureA (s : System) : System :=
  { s with m_pressureA := s.m_waterGrid.length }

/-- The method `System::initWaterGrid`: the loops, the size assertion, then `initPressureA`. -/
def initWaterGrid (cfg : Config) (s : System) : Option System :=
  let s1 : System := { s with m_waterGrid := initWaterGridLoop cfg s.m_waterGrid }
  if s1.m_waterGrid.length = cfg.WATERGRID_X * cfg.WATERGRID_Z * cfg.WATERGRID_Y then
    some (initPressureA s1)
  else none

/-! ## The sampler and the particle pool -/

/-- The expression `min + ((max - min) / (rand() % 1000))` that `getRandPosWithinRange`
evaluates on each axis, for the value `r` returned by `rand()`. -/
def axisValue (min max : FloatVal) (r : Nat) : FloatVal :=
  fadd min (fdiv (fsub max min) (ofInt ((r : Int) % 1000)))

/-- The function `getRandPosWithinRange`: three calls of `rand()`, in the order X, Y, Z. -/
def getRandPosWithinRange (minX maxX minY maxY minZ maxZ : FloatVal) (g : RandState) :
    Vector3f × RandState :=
  let d1 := rand g
  let d2 := rand d1.2
  let d3 := rand d2.2
  ({ x := axisValue minX maxX d1.1
     y := axisValue minY maxY d2.1
     z := axisValue minZ maxZ d3.1 }, d3.2)

/-- The operations on a float type `F` that `getRandPosWithinRange` uses: addition,
subtraction, division, and the conversion of an `int`. -/
structure FloatArith (F : Type) where
  add : F → F → F
  sub : F → F → F
  div : F → F → F
  ofInt : Int → F

/-- A vector of three values of `F`, in the order X, Y, Z. -/
structure Vec3 (F : Type) where
  x : F
  y : F
  z : F

/-- The function `getRandPosWithinRange` over an arbitrary float arithmetic: three calls of
`rand()`, in the order X, Y, Z, each value reduced modulo 1000, converted, and used as the
divisor of `max - min` before `min` is added. -/
def getRandPosWithinRangeOn {F : Type} (A : FloatArith F)
    (minX maxX minY maxY minZ maxZ : F) (g : RandState) : Vec3 F × RandState :=
  let d1 := rand g
  let d2 := rand d1.2
  let d3 := rand d2.2
  ({ x := A.add minX (A.div (A.sub maxX minX) (A.ofInt ((d1.1 : Int) % 1000)))
     y := A.add minY (A.div (A.sub maxY minY) (A.ofInt ((d2.1 : Int) % 1000)))
     z := A.add minZ (A.div (A.sub maxZ minZ) (A.ofInt ((d3.1 : Int) % 1000))) }, d3.2)

/-- The exact arithmetic of `FloatVal`. -/
def exactArith : FloatArith FloatVal :=
  { add := fadd, sub := fsub, div := fdiv, ofInt := ofInt }

/-- The particle built in the body of the loop of `initParticles`. -/
def newParticle (cfg : Config) (g : RandState) : Particle × RandState :=
  let pos := getRandPosWithinRange
    (fdiv (ofInt cfg.WATERGRID_X) (some 4))
    (fdiv (ofInt (cfg.WATERGRID_X * 3 : Nat)) (some 4))
    (fsub (ofInt cfg.WATERGRID_Y) (some (1 / 1000)))
    (fsub (ofInt cfg.WATERGRID_Y) (some (1 / 1000)))
    (fdiv (ofInt cfg.WATERGRID_Z) (some 4))
    (fdiv (ofInt (cfg.WATERGRID_Z * 3 : Nat)) (some 4)) g
  ({ position := pos.1
     velocity := ⟨ofInt 0, ofInt (-5), ofInt 0⟩
     opacity := some 1
     lifeTime := some 5 }, pos.2)

/-- The loop of `initParticles` (`reserve` changes the capacity only, which is not modelled). -/
def initParticlesLoop (cfg : Config) (s : System) (g : RandState) : System × RandState :=
  (List.range cfg.INIT_NUM_PARTICLES).foldl (fun acc _ =>
    let p := newParticle cfg acc.2
    ({ acc.1 with m_ink := acc.1.m_ink ++ [p.1] }, p.2)) (s, g)

/-- The method `System::initParticles`: the loop, then the size assertion. -/
def initParticles (cfg : Config) (s : System) (g : RandState) : Option (System × RandState) :=
  let r := initParticlesLoop cfg s g
  if r.1.m_ink.length = cfg.INIT_NUM_PARTICLES then some r else none

/-- The method `System::init`. -/
def init (cfg : Config) (s : System) (g : RandState) : Option (System × RandState) :=
  match initWaterGrid cfg s with
  | some s1 => initParticles cfg s1 g
  | none => none

/-- The method `System::getInkParticles`. -/
def getInkParticles (s : System) : List Particle := s.m_ink

/-! ## The keys inserted by the loops -/

/-- The keys built by the loops of `initWaterGrid`, in the order of the iterations. -/
def loopKeys (cfg : Config) : List Vector3i :=
  (List.range cfg.WATERGRID_X).flatMap (fun (l : Nat) =>
    (List.range cfg.WATERGRID_Z).flatMap (fun (w : Nat) =>
      (List.range cfg.WATERGRID_Y).map (fun (h : Nat) => Vector3i.mk (l : Int) (w : Int) (h : Int))))

/-- Successive `insert`s of the same cell under a list of keys. -/
def insertAll (grid : WaterGrid) (ks : List Vector3i) (c : Cell) : WaterGrid :=
  ks.foldl (fun g k => gridInsert g k c) grid

/-- The keys of the map. -/
def gridKeys (grid : WaterGrid) : List Vector3i := grid.map Prod.fst

/-- The condition of a coordinate triple to be a key built by the loops: the first
component ranges over `WATERGRID_X`, the second over `WATERGRID_Z`, the third over
`WATERGRID_Y`. -/
def inLoopRange (cfg : Config) (k : Vector3i) : Prop :=
  (0 ≤ k.x ∧ k.x < cfg.WATERGRID_X) ∧ (0 ≤ k.y ∧ k.y < cfg.WATERGRID_Z) ∧
    (0 ≤ k.z ∧ k.z < cfg.WATERGRID_Y)

instance (cfg : Config) (k : Vector3i) : Decidable (inLoopRange cfg k) := by
  unfold inLoopRange; infer_instance

/-- The condition of the specification for a coordinate triple `(x, y, z)` to be a key:
`0 <= x < DIM_X`, `0 <= y < DIM_Y` and `0 <= z < DIM_Z`. -/
def inSpecRange (cfg : Config) (k : Vector3i) : Prop :=
  (0 ≤ k.x ∧ k.x < cfg.WATERGRID_X) ∧ (0 ≤ k.y ∧ k.y < cfg.WATERGRID_Y) ∧
    (0 ≤ k.z ∧ k.z < cfg.WATERGRID_Z)

instance (cfg : Config) (k : Vector3i) : Decidable (inSpecRange cfg k) := by
  unfold inSpecRange; infer_instance

/-! ## The particles created by the loop -/

/-- The particles appended by `k` iterations of the loop of `initParticles`. -/
def createdParticles (cfg : Config) (k : Nat) (g : RandState) : List Particle :=
  (List.range k).map (fun j => (newParticle cfg (dropDraws (3 * j) g)).1)

/-! ## Lemmas on the grid -/

theorem foldl_flatMap_eq {α β γ : Type} (f : α → List β) (op : γ → β → γ) (l : List α) (init : γ) :
    (l.flatMap f).foldl op init = l.foldl (fun acc a => (f a).foldl op acc) init := by
  induction l generalizing init with
  | nil => rfl
  | cons a t ih => simp [List.flatMap_cons, List.foldl_append, ih]

theorem initWaterGridLoop_eq_insertAll (cfg : Config) (grid : WaterGrid) :
    initWaterGridLoop cfg grid = insertAll grid (loopKeys cfg) initCell := by
  unfold initWaterGridLoop insertAll loopKeys
  rw [foldl_flatMap_eq]
  congr 1
  funext g1 l
  rw [foldl_flatMap_eq]
  congr 1
  funext g2 w
  rw [List.foldl_map]

theorem gridContains_iff (grid : WaterGrid) (k : Vector3i) :
    gridContains grid k = true ↔ k ∈ gridKeys grid := by
  unfold gridContains gridKeys
  simp only [List.any_eq_true, decide_eq_true_eq, List.mem_map]

theorem insertAll_fresh (c : Cell) (ks : List Vector3i) (grid : WaterGrid)
    (h : (gridKeys grid ++ ks).Nodup) :
    insertAll grid ks c = grid ++ ks.map (fun k => (k, c)) := by
  induction ks generalizing grid with
  | nil => simp [insertAll]
  | cons k t ih =>
    have hk : ¬ (gridContains grid k = true) := by
      rw [gridContains_iff]
      intro hmem
      have := List.nodup_append.1 h
      exact this.2.2 hmem (List.mem_cons_self k t)
    have hstep : gridInsert grid k c = grid ++ [(k, c)] := by
      unfold gridInsert
      rw [if_neg hk]
    have h2 : (gridKeys (grid ++ [(k, c)]) ++ t).Nodup := by
      simpa [gridKeys, List.append_assoc] using h
    have := ih (grid ++ [(k, c)]) h2
    unfold insertAll at this ⊢
    rw [List.foldl_cons, hstep, this]
    simp

theorem insertAll_present (c : Cell) (ks : List Vector3i) (grid : WaterGrid)
    (h : ∀ k ∈ ks, k ∈ gridKeys grid) : insertAll grid ks c = grid := by
  induction ks with
  | nil => rfl
  | cons k t ih =>
    have hk : gridContains grid k = true :=
      (gridContains_iff grid k).2 (h k (List.mem_cons_self k t))
    have hstep : gridInsert grid k c = grid := by
      unfold gridInsert
      rw [if_pos hk]
    have := ih (fun k2 hk2 => h k2 (List.mem_cons_of_mem k hk2))
    unfold insertAll at this ⊢
    rw [List.foldl_cons, hstep, this]

theorem mem_loopKeys (cfg : Config) (k : Vector3i) :
    k ∈ loopKeys cfg ↔ inLoopRange cfg k := by
  unfold loopKeys inLoopRange
  simp only [List.mem_flatMap, List.mem_range, List.mem_map]
  constructor
  · rintro ⟨l, hl, w, hw, h, hh, rfl⟩
    simp only
    omega
  · rintro ⟨⟨hx0, hx⟩, ⟨hy0, hy⟩, ⟨hz0, hz⟩⟩
    refine ⟨k.x.toNat, by omega, k.y.toNat, by omega, k.z.toNat, by omega, ?_⟩
    cases k with
    | mk x y z =>
      simp only at hx0 hy0 hz0 ⊢
      rw [Int.toNat_of_nonneg hx0, Int.toNat_of_nonneg hy0, Int.toNat_of_nonneg hz0]

theorem nodup_loopKeys (cfg : Config) : (loopKeys cfg).Nodup := by
  unfold loopKeys
  rw [List.nodup_flatMap]
  refine ⟨fun l _ => ?_, ?_⟩
  · rw [List.nodup_flatMap]
    refine ⟨fun w _ => ?_, ?_⟩
    · refine List.Nodup.map ?_ (List.nodup_range _)
      intro a b hab
      simpa using hab
    · refine (List.nodup_range _).imp ?_
      intro a b hab
      simp only [Function.onFun]
      rw [List.disjoint_left]
      intro k h1 h2
      simp only [List.mem_map] at h1 h2
      obtain ⟨h, _, rfl⟩ := h1
      obtain ⟨h2, _, heq⟩ := h2
      simp only [Vector3i.mk.injEq] at heq
      omega
  · refine (List.nodup_range _).imp ?_
    intro a b hab
    simp only [Function.onFun]
    rw [List.disjoint_left]
    intro k h1 h2
    simp only [List.mem_flatMap, List.mem_map] at h1 h2
    obtain ⟨w, _, h, _, rfl⟩ := h1
    obtain ⟨w2, _, h2, _, heq⟩ := h2
    simp only [Vector3i.mk.injEq] at heq
    omega

theorem length_loopKeys (cfg : Config) :
    (loopKeys cfg).length = cfg.WATERGRID_X * cfg.WATERGRID_Z * cfg.WATERGRID_Y := by
  unfold loopKeys
  simp [List.length_flatMap, Function.comp_def, List.map_const', Nat.mul_assoc]

theorem initWaterGridLoop_nil (cfg : Config) :
    initWaterGridLoop cfg [] = (loopKeys cfg).map (fun k => (k, initCell)) := by
  rw [initWaterGridLoop_eq_insertAll, insertAll_fresh]
  · simp
  · simpa [gridKeys] using nodup_loopKeys cfg

theorem initWaterGrid_of_empty (cfg : Config) (s : System) (hs : s.m_waterGrid = []) :
    initWaterGrid cfg s = some (initPressureA
      { s with m_waterGrid := (loopKeys cfg).map (fun k => (k, initCell)) }) := by
  unfold initWaterGrid
  simp only [hs, initWaterGridLoop_nil, List.length_map, length_loopKeys, if_true]

theorem initWaterGrid_grid (cfg : Config) (s : System) (hs : s.m_waterGrid = []) :
    (initPressureA
      { s with m_waterGrid := (loopKeys cfg).map (fun k => (k, initCell)) }).m_waterGrid
      = initWaterGridLoop cfg s.m_waterGrid := by
  rw [hs, initWaterGridLoop_nil]
  rfl

theorem count_loopKeys (cfg : Config) (k : Vector3i) :
    (loopKeys cfg).count k = if inLoopRange cfg k then 1 else 0 := by
  by_cases h : inLoopRange cfg k
  · rw [if_pos h]
    exact List.count_eq_one_of_mem (nodup_loopKeys cfg) ((mem_loopKeys cfg k).2 h)
  · rw [if_neg h]
    exact List.count_eq_zero_of_not_mem (fun hm => h ((mem_loopKeys cfg k).1 hm))

/-! ## The water grid after `initWaterGrid` -/

/-- C1: for all grid dimensions (in particular all positive ones), `initWaterGrid` run on a
system whose grid is empty passes its size assertion and returns a system whose grid has
exactly `WATERGRID_X * WATERGRID_Y * WATERGRID_Z` entries; for the dimensions 2, 2, 2 the
grid has 8 entries. -/
theorem initWaterGrid_size (cfg : Config) (s : System) (hs : s.m_waterGrid = []) :
    (∃ s1, initWaterGrid cfg s = some s1 ∧
      s1.m_waterGrid = initWaterGridLoop cfg s.m_waterGrid ∧
      s1.m_waterGrid.length = cfg.WATERGRID_X * cfg.WATERGRID_Y * cfg.WATERGRID_Z) ∧
    (cfg.WATERGRID_X = 2 → cfg.WATERGRID_Y = 2 → cfg.WATERGRID_Z = 2 →
      ∃ s1, initWaterGrid cfg s = some s1 ∧ s1.m_waterGrid.length = 8) := by
  have hlen : (initPressureA
      { s with m_waterGrid := (loopKeys cfg).map (fun k => (k, initCell)) }).m_waterGrid.length
      = cfg.WATERGRID_X * cfg.WATERGRID_Y * cfg.WATERGRID_Z := by
    simp only [initPressureA, List.length_map, length_loopKeys]
    ring
  refine ⟨⟨_, initWaterGrid_of_empty cfg s hs, initWaterGrid_grid cfg s hs, hlen⟩,
    fun hx hy hz => ?_⟩
  refine ⟨_, initWaterGrid_of_empty cfg s hs, ?_⟩
  rw [hlen, hx, hy, hz]

/-- Witness of C1: the dimensions 2, 2, 2 on the system built by the constructor. -/
theorem initWaterGrid_size_witness :
    emptySystem.m_waterGrid = [] ∧
    ∃ s1, initWaterGrid ⟨2, 2, 2, 0⟩ emptySystem = some s1 ∧ s1.m_waterGrid.length = 8 :=
  ⟨rfl, (initWaterGrid_size ⟨2, 2, 2, 0⟩ emptySystem rfl).2 rfl rfl rfl⟩

/-- C2, as stated, fails: with `WATERGRID_X = 1`, `WATERGRID_Y = 1`, `WATERGRID_Z = 2` the
grid built from the empty grid has the key `(0, 1, 0)`, whose second component is not below
`WATERGRID_Y`, and lacks the triple `(0, 0, 1)` of the Cartesian product. -/
theorem initWaterGrid_keys_spec_range_fails :
    ∃ s1, initWaterGrid ⟨1, 1, 2, 0⟩ emptySystem = some s1 ∧
      ¬ (gridContains s1.m_waterGrid ⟨0, 1, 0⟩ = true ↔ inSpecRange ⟨1, 1, 2, 0⟩ ⟨0, 1, 0⟩) ∧
      ¬ (gridContains s1.m_waterGrid ⟨0, 0, 1⟩ = true ↔ inSpecRange ⟨1, 1, 2, 0⟩ ⟨0, 0, 1⟩) := by
  refine ⟨_, rfl, ?_, ?_⟩ <;> decide

/-- C2, amended: for all grid dimensions, after `initWaterGrid` on an empty grid a coordinate
triple `(x, y, z)` is a key of the grid if and only if `0 <= x < WATERGRID_X`,
`0 <= y < WATERGRID_Z` and `0 <= z < WATERGRID_Y`; each such triple is a key exactly once and
no other key exists. -/
theorem initWaterGrid_keys (cfg : Config) (s : System) (hs : s.m_waterGrid = []) :
    ∃ s1, initWaterGrid cfg s = some s1 ∧
      s1.m_waterGrid = initWaterGridLoop cfg s.m_waterGrid ∧
      ∀ k : Vector3i, (gridContains s1.m_waterGrid k = true ↔ inLoopRange cfg k) ∧
        (gridKeys s1.m_waterGrid).count k = if inLoopRange cfg k then 1 else 0 := by
  refine ⟨_, initWaterGrid_of_empty cfg s hs, initWaterGrid_grid cfg s hs, fun k => ?_⟩
  have hkeys : gridKeys (initPressureA
      { s with m_waterGrid := (loopKeys cfg).map (fun k => (k, initCell)) }).m_waterGrid
      = loopKeys cfg := by
    simp [initPressureA, gridKeys, Function.comp_def]
  rw [gridContains_iff, hkeys]
  exact ⟨mem_loopKeys cfg k, count_loopKeys cfg k⟩

/-- Witness of the amended C2: the dimensions `X = 1`, `Y = 1`, `Z = 2`. -/
theorem initWaterGrid_keys_witness :
    emptySystem.m_waterGrid = [] ∧
    ∃ s1, initWaterGrid ⟨1, 1, 2, 0⟩ emptySystem = some s1 ∧
      s1.m_waterGrid = initWaterGridLoop ⟨1, 1, 2, 0⟩ emptySystem.m_waterGrid ∧
      ∀ k : Vector3i, (gridContains s1.m_waterGrid k = true ↔ inLoopRange ⟨1, 1, 2, 0⟩ k) ∧
        (gridKeys s1.m_waterGrid).count k = if inLoopRange ⟨1, 1, 2, 0⟩ k then 1 else 0 :=
  ⟨rfl, initWaterGrid_keys ⟨1, 1, 2, 0⟩ emptySystem rfl⟩

/-- C3: after `initWaterGrid` on an empty grid, every cell stored in the grid has pressure 0
and `old_velocity` and `curr_velocity` both equal to `(5, 0, 0)`. -/
theorem initWaterGrid_cells (cfg : Config) (s : System) (hs : s.m_waterGrid = []) :
    ∃ s1, initWaterGrid cfg s = some s1 ∧
      s1.m_waterGrid = initWaterGridLoop cfg s.m_waterGrid ∧
      ∀ e ∈ s1.m_waterGrid, e.2.pressure = some 0 ∧
        e.2.old_velocity = ⟨some 5, some 0, some 0⟩ ∧
        e.2.curr_velocity = ⟨some 5, some 0, some 0⟩ ∧
        e.2.old_velocity = e.2.curr_velocity := by
  refine ⟨_, initWaterGrid_of_empty cfg s hs, initWaterGrid_grid cfg s hs, fun e he => ?_⟩
  simp only [initPressureA, List.mem_map] at he
  obtain ⟨k, _, rfl⟩ := he
  simp [initCell, ofInt]

/-- Witness of C3: the dimensions 2, 2, 2, where the grid has 8 cells. -/
theorem initWaterGrid_cells_witness :
    emptySystem.m_waterGrid = [] ∧
    ∃ s1, initWaterGrid ⟨2, 2, 2, 0⟩ emptySystem = some s1 ∧
      s1.m_waterGrid = initWaterGridLoop ⟨2, 2, 2, 0⟩ emptySystem.m_waterGrid ∧
      ∀ e ∈ s1.m_waterGrid, e.2.pressure = some 0 ∧
        e.2.old_velocity = ⟨some 5, some 0, some 0⟩ ∧
        e.2.curr_velocity = ⟨some 5, some 0, some 0⟩ ∧
        e.2.old_velocity = e.2.curr_velocity :=
  ⟨rfl, initWaterGrid_cells ⟨2, 2, 2, 0⟩ emptySystem rfl⟩

/-! ## Lemmas on the sampler and the particle loop -/

theorem dropDraws_dropDraws (a b : Nat) (g : RandState) :
    dropDraws a (dropDraws b g) = dropDraws (b + a) g := by
  funext n
  simp [dropDraws, Nat.add_assoc, Nat.add_comm a b]

theorem axisValue_finite (mn mx : ℚ) (r : Nat) :
    axisValue (some mn) (some mx) r =
      if r % 1000 = 0 then none else some (mn + (mx - mn) / ((r % 1000 : Nat) : ℚ)) := by
  have hcast : (((r : Int) % 1000 : Int) : ℚ) = ((r % 1000 : Nat) : ℚ) := by
    rfl
  unfold axisValue ofInt
  rw [hcast]
  by_cases h : r % 1000 = 0
  · simp [h, fsub, fdiv, fadd]
  · have h2 : ((r % 1000 : Nat) : ℚ) ≠ 0 := by exact_mod_cast h
    simp [h, h2, fsub, fdiv, fadd]

theorem getRandPosWithinRange_eq (minX maxX minY maxY minZ maxZ : FloatVal) (g : RandState) :
    getRandPosWithinRange minX maxX minY maxY minZ maxZ g =
      (⟨axisValue minX maxX (g 0), axisValue minY maxY (g 1), axisValue minZ maxZ (g 2)⟩,
        dropDraws 3 g) := by
  simp [getRandPosWithinRange, rand, dropDraws_dropDraws, dropDraws]

theorem getRandPosWithinRange_exactArith (minX maxX minY maxY minZ maxZ : FloatVal)
    (g : RandState) :
    getRandPosWithinRange minX maxX minY maxY minZ maxZ g =
      (⟨(getRandPosWithinRangeOn exactArith minX maxX minY maxY minZ maxZ g).1.x,
        (getRandPosWithinRangeOn exactArith minX maxX minY maxY minZ maxZ g).1.y,
        (getRandPosWithinRangeOn exactArith minX maxX minY maxY minZ maxZ g).1.z⟩,
        (getRandPosWithinRangeOn exactArith minX maxX minY maxY minZ maxZ g).2) := rfl

theorem newParticle_snd (cfg : Config) (g : RandState) :
    (newParticle cfg g).2 = dropDraws 3 g := by
  simp [newParticle, getRandPosWithinRange_eq]

theorem initParticles_foldl (cfg : Config) (s : System) (g : RandState) (k : Nat) :
    (List.range k).foldl (fun (acc : System × RandState) (_ : Nat) =>
        let p := newParticle cfg acc.2
        ({ acc.1 with m_ink := acc.1.m_ink ++ [p.1] }, p.2)) (s, g)
      = ({ s with m_ink := s.m_ink ++ createdParticles cfg k g }, dropDraws (3 * k) g) := by
  induction k with
  | zero =>
    simp only [createdParticles, List.range_zero, List.foldl_nil, List.map_nil, List.append_nil]
    rfl
  | succ n ih =>
    rw [List.range_succ, List.foldl_append, ih]
    simp only [List.foldl_cons, List.foldl_nil, newParticle_snd, dropDraws_dropDraws,
      createdParticles, List.map_append, List.map_cons, List.map_nil, List.append_assoc]
    rw [show 3 * n + 3 = 3 * (n + 1) by ring, List.range_succ, List.map_append]
    rfl

theorem initParticlesLoop_eq (cfg : Config) (s : System) (g : RandState) :
    initParticlesLoop cfg s g =
      ({ s with m_ink := s.m_ink ++ createdParticles cfg cfg.INIT_NUM_PARTICLES g },
        dropDraws (3 * cfg.INIT_NUM_PARTICLES) g) :=
  initParticles_foldl cfg s g cfg.INIT_NUM_PARTICLES

theorem length_createdParticles (cfg : Config) (k : Nat) (g : RandState) :
    (createdParticles cfg k g).length = k := by
  simp [createdParticles]

theorem initParticles_of_empty (cfg : Config) (s : System) (g : RandState)
    (hs : s.m_ink = []) : initParticles cfg s g = some (initParticlesLoop cfg s g) := by
  unfold initParticles
  simp [initParticlesLoop_eq, hs, length_createdParticles]

/-! ## The particle pool after `initParticles` -/

/-- C4: for every configured count `N` (zero included) and every sequence of random draws,
`initParticles` run on a system whose pool is empty passes its size assertion and returns a
pool of length exactly `N`. -/
theorem initParticles_length (cfg : Config) (s : System) (g : RandState)
    (hs : s.m_ink = []) :
    ∃ r, initParticles cfg s g = some r ∧ r.1.m_ink.length = cfg.INIT_NUM_PARTICLES := by
  refine ⟨_, initParticles_of_empty cfg s g hs, ?_⟩
  simp [initParticlesLoop_eq, hs, length_createdParticles]

/-- Witness of C4: 100 particles on the system built by the constructor, with the draws
0, 1, 2, ... (the loop runs 100 times and consumes 300 draws). -/
theorem initParticles_length_witness :
    emptySystem.m_ink = [] ∧
    ∃ r, initParticles ⟨2, 2, 2, 100⟩ emptySystem (fun n => n) = some r ∧
      r.1.m_ink.length = 100 :=
  ⟨rfl, initParticles_length ⟨2, 2, 2, 100⟩ emptySystem (fun n => n) rfl⟩

/-- C5: for every count and every sequence of random draws, every particle that the loop of
`initParticles` appends to the pool has opacity 1, lifetime 5 and velocity `(0, -5, 0)`. -/
theorem initParticles_defaults (cfg : Config) (s : System) (g : RandState) (p : Particle)
    (hp : p ∈ (initParticlesLoop cfg s g).1.m_ink.drop s.m_ink.length) :
    p.opacity = some 1 ∧ p.lifeTime = some 5 ∧ p.velocity = ⟨some 0, some (-5), some 0⟩ := by
  simp only [initParticlesLoop_eq, List.drop_left, createdParticles, List.mem_map] at hp
  obtain ⟨j, _, rfl⟩ := hp
  simp [newParticle, ofInt]

/-- Witness of C5: one particle, created on the system built by the constructor. -/
theorem initParticles_defaults_witness :
    (newParticle ⟨2, 2, 2, 1⟩ (fun _ => 1)).1 ∈
      (initParticlesLoop ⟨2, 2, 2, 1⟩ emptySystem (fun _ => 1)).1.m_ink.drop
        emptySystem.m_ink.length ∧
    (newParticle ⟨2, 2, 2, 1⟩ (fun _ => 1)).1.opacity = some 1 ∧
    (newParticle ⟨2, 2, 2, 1⟩ (fun _ => 1)).1.lifeTime = some 5 ∧
    (newParticle ⟨2, 2, 2, 1⟩ (fun _ => 1)).1.velocity = ⟨some 0, some (-5), some 0⟩ :=
  ⟨List.mem_singleton_self _,
    initParticles_defaults ⟨2, 2, 2, 1⟩ emptySystem (fun _ => 1) _ (List.mem_singleton_self _)⟩

/-- C6: in every float arithmetic (that of the machine included), for all bounds and every
state of the generator, whose next three values are `r1`, `r2`, `r3`,
`getRandPosWithinRange` returns the vector whose X is `minX + (maxX - minX) / (r1 mod 1000)`,
whose Y is `minY + (maxY - minY) / (r2 mod 1000)` and whose Z is
`minZ + (maxZ - minZ) / (r3 mod 1000)`, the operations being those of the arithmetic; each
divisor is an integer of `[0, 999]`, and the generator is left after exactly these three
values, consumed in the order X, Y, Z. -/
theorem getRandPosWithinRangeOn_formula {F : Type} (A : FloatArith F)
    (minX maxX minY maxY minZ maxZ : F) (g : RandState) :
    getRandPosWithinRangeOn A minX maxX minY maxY minZ maxZ g =
      (⟨A.add minX (A.div (A.sub maxX minX) (A.ofInt ((g 0 : Int) % 1000))),
        A.add minY (A.div (A.sub maxY minY) (A.ofInt ((g 1 : Int) % 1000))),
        A.add minZ (A.div (A.sub maxZ minZ) (A.ofInt ((g 2 : Int) % 1000)))⟩,
        dropDraws 3 g) ∧
    (0 ≤ (g 0 : Int) % 1000 ∧ (g 0 : Int) % 1000 ≤ 999) ∧
    (0 ≤ (g 1 : Int) % 1000 ∧ (g 1 : Int) % 1000 ≤ 999) ∧
    (0 ≤ (g 2 : Int) % 1000 ∧ (g 2 : Int) % 1000 ≤ 999) := by
  refine ⟨?_, ?_, ?_, ?_⟩
  · simp [getRandPosWithinRangeOn, rand, dropDraws_dropDraws, dropDraws]
  all_goals omega

/-- C8: on an axis with `min <= max`, for a draw whose remainder `d` modulo 1000 is not zero
(so `d` lies in `[1, 999]`), the value `min + (max - min) / d` computed by
`getRandPosWithinRange` is finite and lies in `[min + (max - min) / 999, max]`; it is
`min + (max - min) / 999` at `d = 999`, it is `max` at `d = 1`, and it does not increase
when `d` increases. -/
theorem axisValue_range (mn mx : ℚ) (r : Nat) (hle : mn ≤ mx) (hr : r % 1000 ≠ 0) :
    ∃ v, axisValue (some mn) (some mx) r = some v ∧
      v = mn + (mx - mn) / ((r % 1000 : Nat) : ℚ) ∧
      mn + (mx - mn) / 999 ≤ v ∧ v ≤ mx ∧
      (r % 1000 = 999 → v = mn + (mx - mn) / 999) ∧
      (r % 1000 = 1 → v = mx) ∧
      (∀ r2 : Nat, r % 1000 ≤ r2 % 1000 →
        ∃ v2, axisValue (some mn) (some mx) r2 = some v2 ∧ v2 ≤ v) := by
  have hnn : (0 : ℚ) ≤ mx - mn := sub_nonneg.2 hle
  have hd1 : (1 : ℚ) ≤ ((r % 1000 : Nat) : ℚ) := by
    have : 1 ≤ r % 1000 := Nat.one_le_iff_ne_zero.2 hr
    exact_mod_cast this
  have hd999 : ((r % 1000 : Nat) : ℚ) ≤ 999 := by
    have : r % 1000 ≤ 999 := by omega
    exact_mod_cast this
  have hpos : (0 : ℚ) < ((r % 1000 : Nat) : ℚ) := lt_of_lt_of_le one_pos hd1
  refine ⟨mn + (mx - mn) / ((r % 1000 : Nat) : ℚ), ?_, rfl, ?_, ?_, ?_, ?_, ?_⟩
  · rw [axisValue_finite, if_neg hr]
  · have := div_le_div_of_nonneg_left hnn hpos hd999
    linarith
  · have := div_le_self hnn hd1
    linarith
  · intro h
    rw [h]
    norm_num
  · intro h
    rw [h]
    norm_num
  · intro r2 h2
    have hr2 : r2 % 1000 ≠ 0 := by omega
    refine ⟨mn + (mx - mn) / ((r2 % 1000 : Nat) : ℚ), ?_, ?_⟩
    · rw [axisValue_finite, if_neg hr2]
    · have hc : ((r % 1000 : Nat) : ℚ) ≤ ((r2 % 1000 : Nat) : ℚ) := by exact_mod_cast h2
      have := div_le_div_of_nonneg_left hnn hpos hc
      linarith

/-- Witness of C8: the axis `[0, 999]` and the draw 3, where the value is 333. -/
theorem axisValue_range_witness :
    (0 : ℚ) ≤ 999 ∧ 3 % 1000 ≠ 0 ∧
    ∃ v, axisValue (some 0) (some 999) 3 = some v ∧
      v = 0 + (999 - 0) / ((3 % 1000 : Nat) : ℚ) ∧
      0 + (999 - 0) / 999 ≤ v ∧ v ≤ 999 ∧
      (3 % 1000 = 999 → v = 0 + (999 - 0) / 999) ∧
      (3 % 1000 = 1 → v = 999) ∧
      (∀ r2 : Nat, 3 % 1000 ≤ r2 % 1000 →
        ∃ v2, axisValue (some 0) (some 999) r2 = some v2 ∧ v2 ≤ v) :=
  ⟨by norm_num, by decide, axisValue_range 0 999 3 (by norm_num) (by decide)⟩

theorem axisValue_zero_divisor (mn mx : FloatVal) (r : Nat) (h : r % 1000 = 0) :
    axisValue mn mx r = none := by
  have hz : ((r : Int) % 1000 : Int) = 0 := by omega
  unfold axisValue ofInt
  rw [hz]
  cases fsub mx mn <;> cases mn <;> simp [fdiv, fadd]

theorem isSome_axisValue (mn mx : ℚ) (r : Nat) :
    (axisValue (some mn) (some mx) r).isSome = true ↔ ¬ (1000 ∣ r) := by
  rw [axisValue_finite, Nat.dvd_iff_mod_eq_zero]
  by_cases h : r % 1000 = 0 <;> simp [h]

/-- C9: with the guarded division, `getRandPosWithinRange` on finite bounds returns a point
(three finite components) if and only if none of its three draws is a multiple of 1000; for
every choice of the six bounds some state of the generator leads to a division by zero; and
`initParticles` with a count of at least 1, run on an empty pool, creates for some sequence
of draws a particle whose position is not a point. -/
theorem getRandPosWithinRange_isPoint :
    (∀ (minX maxX minY maxY minZ maxZ : ℚ) (g : RandState),
      (getRandPosWithinRange (some minX) (some maxX) (some minY) (some maxY) (some minZ)
          (some maxZ) g).1.isPoint = true ↔
        (¬ (1000 ∣ g 0) ∧ ¬ (1000 ∣ g 1) ∧ ¬ (1000 ∣ g 2))) ∧
    (∀ minX maxX minY maxY minZ maxZ : FloatVal, ∃ g : RandState,
      (getRandPosWithinRange minX maxX minY maxY minZ maxZ g).1.isPoint = false) ∧
    (∀ (cfg : Config) (s : System), s.m_ink = [] → 1 ≤ cfg.INIT_NUM_PARTICLES →
      ∃ g r, initParticles cfg s g = some r ∧
        ∃ p ∈ r.1.m_ink, p.position.isPoint = false) := by
  refine ⟨?_, ?_, ?_⟩
  · intro minX maxX minY maxY minZ maxZ g
    rw [getRandPosWithinRange_eq]
    simp only [Vector3f.isPoint, Bool.and_eq_true, isSome_axisValue, and_assoc]
  · intro minX maxX minY maxY minZ maxZ
    refine ⟨fun _ => 0, ?_⟩
    rw [getRandPosWithinRange_eq]
    simp [Vector3f.isPoint, axisValue_zero_divisor]
  · intro cfg s hs hN
    refine ⟨fun _ => 0, _, initParticles_of_empty cfg s _ hs,
      (newParticle cfg (dropDraws (3 * 0) (fun _ => 0))).1, ?_, ?_⟩
    · rw [initParticlesLoop_eq, hs]
      simp only [List.nil_append, createdParticles, List.mem_map, List.mem_range]
      exact ⟨0, by omega, rfl⟩
    · simp [newParticle, getRandPosWithinRange_eq, Vector3f.isPoint, axisValue_zero_divisor,
        dropDraws]

/-- Witness of C9: one particle on the system built by the constructor. -/
theorem getRandPosWithinRange_isPoint_witness :
    emptySystem.m_ink = [] ∧ 1 ≤ (Config.mk 2 2 2 1).INIT_NUM_PARTICLES ∧
    ∃ g r, initParticles ⟨2, 2, 2, 1⟩ emptySystem g = some r ∧
      ∃ p ∈ r.1.m_ink, p.position.isPoint = false :=
  ⟨rfl, by decide, getRandPosWithinRange_isPoint.2.2 ⟨2, 2, 2, 1⟩ emptySystem rfl (by decide)⟩

/-! ## The height of the created particles -/

theorem newParticle_height (cfg : Config) (g : RandState) :
    (newParticle cfg g).1.position.y =
      if g 1 % 1000 = 0 then none else some ((cfg.WATERGRID_Y : ℚ) - 1 / 1000) := by
  have hb : fsub (ofInt cfg.WATERGRID_Y) (some (1 / 1000))
      = some ((cfg.WATERGRID_Y : ℚ) - 1 / 1000) := by
    simp [fsub, ofInt]
  simp only [newParticle, getRandPosWithinRange_eq, hb, axisValue_finite, sub_self, zero_div,
    add_zero]

/-- C7 on the code: with `WATERGRID_Y = 2`, one particle, and the values 1, 1000, 1 returned
by `rand()`, `initParticles` passes its assertion and the only particle of the pool has no
finite Y component (the division `0 / 0`), whereas the bound passed as `minY` and `maxY` is
`2 - 0.001`. -/
theorem initParticles_height_zero_draw :
    ∃ r p, initParticles ⟨2, 2, 2, 1⟩ emptySystem (fun n => if n = 1 then 1000 else 1) = some r ∧
      r.1.m_ink = [p] ∧ p.position.y = none ∧
      fsub (ofInt 2) (some (1 / 1000)) = some (1999 / 1000) ∧
      p.position.y ≠ fsub (ofInt 2) (some (1 / 1000)) := by
  refine ⟨_, (newParticle ⟨2, 2, 2, 1⟩ (fun n => if n = 1 then 1000 else 1)).1,
    initParticles_of_empty _ _ _ rfl, rfl, ?_, ?_, ?_⟩
  · rw [newParticle_height]
    rfl
  · simp only [fsub, ofInt]
    norm_num
  · rw [newParticle_height]
    simp [fsub, ofInt]

/-! ## Running the initialisation on a populated system -/

theorem gridKeys_gridInsert (grid : WaterGrid) (k : Vector3i) (c : Cell) :
    k ∈ gridKeys (gridInsert grid k c) ∧
      ∀ k2 ∈ gridKeys grid, k2 ∈ gridKeys (gridInsert grid k c) := by
  unfold gridInsert
  by_cases h : gridContains grid k = true
  · rw [if_pos h]
    exact ⟨(gridContains_iff grid k).1 h, fun _ hk => hk⟩
  · rw [if_neg h]
    simp only [gridKeys, List.map_append, List.map_cons, List.map_nil, List.mem_append,
      List.mem_singleton]
    exact ⟨Or.inr trivial, fun _ hk => Or.inl hk⟩

theorem insertAll_covers (c : Cell) (ks : List Vector3i) (grid : WaterGrid) :
    (∀ k ∈ gridKeys grid, k ∈ gridKeys (insertAll grid ks c)) ∧
      ∀ k ∈ ks, k ∈ gridKeys (insertAll grid ks c) := by
  induction ks generalizing grid with
  | nil => exact ⟨fun _ hk => hk, fun _ hk => absurd hk (List.not_mem_nil _)⟩
  | cons a t ih =>
    have hstep := gridKeys_gridInsert grid a c
    have hrec := ih (gridInsert grid a c)
    have hunf : insertAll grid (a :: t) c = insertAll (gridInsert grid a c) t c := rfl
    rw [hunf]
    refine ⟨fun k hk => hrec.1 k (hstep.2 k hk), fun k hk => ?_⟩
    rcases List.mem_cons.1 hk with rfl | hk
    · exact hrec.1 k hstep.1
    · exact hrec.2 k hk

theorem initWaterGridLoop_idem (cfg : Config) (grid : WaterGrid) :
    initWaterGridLoop cfg (initWaterGridLoop cfg grid) = initWaterGridLoop cfg grid := by
  rw [initWaterGridLoop_eq_insertAll, initWaterGridLoop_eq_insertAll]
  exact insertAll_present _ _ _ (insertAll_covers initCell (loopKeys cfg) grid).2

theorem initWaterGrid_again (cfg : Config) (s s1 : System) (h : initWaterGrid cfg s = some s1) :
    initWaterGrid cfg s1 = some s1 := by
  unfold initWaterGrid at h
  simp only at h
  split at h
  · rename_i hlen
    simp only [Option.some.injEq] at h
    subst h
    unfold initWaterGrid
    simp only [initPressureA, initWaterGridLoop_idem, hlen, if_true]
  · exact absurd h (by simp)

theorem init_of_empty (cfg : Config) (s : System) (g : RandState)
    (hg : s.m_waterGrid = []) (hp : s.m_ink = []) : ∃ r, init cfg s g = some r := by
  unfold init
  rw [initWaterGrid_of_empty cfg s hg]
  exact ⟨_, initParticles_of_empty cfg _ g (by simpa [initPressureA] using hp)⟩

/-- C10: for every prior pool `p` and every count `N`, the loop of `initParticles` only
appends: the pool it leaves has length `|p| + N` and its first `|p|` elements are `p`, in
the same order; so the asserted condition `size == N` holds, and `initParticles` returns, if
and only if `p` is empty. In particular, when `N > 0`, a second call of `init` after a
successful first one passes the grid assertion and fails the pool assertion. -/
theorem initParticles_appends (cfg : Config) (s : System) (g : RandState) :
    (initParticlesLoop cfg s g).1.m_ink.length = s.m_ink.length + cfg.INIT_NUM_PARTICLES ∧
    (initParticlesLoop cfg s g).1.m_ink.take s.m_ink.length = s.m_ink ∧
    ((initParticlesLoop cfg s g).1.m_ink.length = cfg.INIT_NUM_PARTICLES ↔ s.m_ink = []) ∧
    ((∃ r, initParticles cfg s g = some r) ↔ s.m_ink = []) ∧
    (0 < cfg.INIT_NUM_PARTICLES → ∀ r1, init cfg s g = some r1 →
      ∃ s2, initWaterGrid cfg r1.1 = some s2 ∧ initParticles cfg s2 r1.2 = none ∧
        init cfg r1.1 r1.2 = none) := by
  have hlen : (initParticlesLoop cfg s g).1.m_ink.length
      = s.m_ink.length + cfg.INIT_NUM_PARTICLES := by
    simp [initParticlesLoop_eq, length_createdParticles]
  have hiff : (initParticlesLoop cfg s g).1.m_ink.length = cfg.INIT_NUM_PARTICLES
      ↔ s.m_ink = [] := by
    rw [hlen, ← List.length_eq_zero]
    omega
  refine ⟨hlen, ?_, hiff, ?_, ?_⟩
  · simp [initParticlesLoop_eq]
  · rw [← hiff]
    unfold initParticles
    simp only
    split
    · rename_i h
      exact ⟨fun _ => h, fun _ => ⟨_, rfl⟩⟩
    · rename_i h
      exact ⟨fun ⟨_, hr⟩ => absurd hr (by simp), fun h2 => absurd h2 h⟩
  · intro hN r1 h1
    unfold init at h1
    cases hw : initWaterGrid cfg s with
    | none => simp [hw] at h1
    | some s1 =>
      simp only [hw] at h1
      unfold initParticles at h1
      simp only at h1
      split at h1
      · rename_i hsz
        simp only [Option.some.injEq] at h1
        have hgrid : r1.1.m_waterGrid = s1.m_waterGrid := by
          rw [← h1, initParticlesLoop_eq]
        have hpool : r1.1.m_ink.length = cfg.INIT_NUM_PARTICLES := by
          rw [← h1]
          exact hsz
        have hpress : r1.1.m_pressureA = s1.m_pressureA := by
          rw [← h1, initParticlesLoop_eq]
        have hs1 := initWaterGrid_again cfg s s1 hw
        have hw2 : initWaterGrid cfg r1.1 = some r1.1 := by
          unfold initWaterGrid at hs1 ⊢
          simp only [hgrid] at hs1 ⊢
          split at hs1
          · rename_i hl
            rw [if_pos hl]
            simp only [Option.some.injEq] at hs1
            have h3 := congrArg System.m_waterGrid hs1
            have h4 := congrArg System.m_pressureA hs1
            simp only [initPressureA] at h3 h4 ⊢
            cases hr : r1.1 with
            | mk wg ink pa =>
              rw [hr] at hgrid hpress
              simp only at hgrid hpress
              simp only [Option.some.injEq, System.mk.injEq, and_true, true_and]
              rw [hgrid, hpress]
              exact ⟨h3, h4⟩
          · exact absurd hs1 (by simp)
        have hfail : initParticles cfg r1.1 r1.2 = none := by
          unfold initParticles
          simp only
          rw [if_neg]
          rw [initParticlesLoop_eq]
          simp only [List.length_append, length_createdParticles, hpool]
          omega
        refine ⟨r1.1, hw2, hfail, ?_⟩
        unfold init
        rw [hw2]
        exact hfail
      · exact absurd h1 (by simp)

/-- Witness of C10: one particle; the first `init` on the system built by the constructor
returns, the second one fails. -/
theorem initParticles_appends_witness :
    0 < (Config.mk 1 1 1 1).INIT_NUM_PARTICLES ∧
    ∃ r1, init ⟨1, 1, 1, 1⟩ emptySystem (fun _ => 1) = some r1 ∧
      ∃ s2, initWaterGrid ⟨1, 1, 1, 1⟩ r1.1 = some s2 ∧
        initParticles ⟨1, 1, 1, 1⟩ s2 r1.2 = none ∧ init ⟨1, 1, 1, 1⟩ r1.1 r1.2 = none := by
  obtain ⟨r1, h1⟩ := init_of_empty ⟨1, 1, 1, 1⟩ emptySystem (fun _ => 1) rfl rfl
  exact ⟨by decide, r1, h1,
    (initParticles_appends ⟨1, 1, 1, 1⟩ emptySystem (fun _ => 1)).2.2.2.2 (by decide) r1 h1⟩

end InkSimulation
